import Mathlib

/-!
Shallow embedding of `smoot/smoot.py` (class `MOO`): the surrogate-assisted
multi-objective refinement loop.  Machine reals are modelled as `ℚ`; the
external collaborators (the SMT kriging engine, the pymoo NSGA2 genetic
solver, scipy's bounded minimizer, the LHS sampler, numpy's Euclidean norm
and the `smoot.criterion.Criterion` scoring closures) are black boxes, passed
in as an `Oracles` record, exactly as the spec declares them out of scope.
Everything that `smoot.py` itself computes is translated definition by
definition from the source.
-/

namespace Smoot

/-- The stream of draws of `self.seed` (`np.random.RandomState`): each
`uniform(lo, hi)` call consumes the head, mapped affinely into `[lo, hi]`. -/
abbrev RNG := List ℚ

/-- The validated value of the `criterion` option (`declare("criterion", "PI",
values=["PI", "EHVI", "GA", "WB2S"])`): the smt options layer rejects any
other string, so the option is a four-valued tag. -/
inductive Crit where
  | PI
  | EHVI
  | GA
  | WB2S
deriving DecidableEq

/-- A trained KRG surrogate, as far as `smoot.py` observes it: the training
set handed to `set_training_values` (read back through
`training_points[None][0]`).  Prediction itself is the external engine
(oracle `predict`). -/
structure KRGModel where
  xt : List (List ℚ)
  yt : List ℚ
deriving DecidableEq

/-- The pymoo `Problem` built by `MOO.def_prob`: bounds split into `xl`/`xu`
and the list of surrogate models the closure `modelizations` captured at
construction time. -/
structure Prob where
  n_var : ℕ
  n_obj : ℕ
  xl : List ℚ
  xu : List ℚ
  models : List KRGModel
deriving DecidableEq

/-- `MyProblem._evaluate`: the objective vector at `x` is the predicted mean
of every captured model (`out["F"] = [i.predict_values(xx)[0][0] for i in
modelizations]`). -/
def probEvaluate (predict : KRGModel → List ℚ → ℚ) (p : Prob) (x : List ℚ) : List ℚ :=
  p.models.map (fun m => predict m x)

/-- The value an objective function returns: `ndarray[ne, 1]` (one scalar per
point, modelled as the column of scalars) or a list of `n_obj` such columns. -/
inductive FunOut where
  | single (ys : List ℚ)
  | multi (cols : List (List ℚ))
deriving DecidableEq

/-- An objective function: its evaluation map plus the optional `xlimits`
attribute that `MOO.optimize` falls back to. -/
structure Fun where
  eval : List (List ℚ) → FunOut
  xlimits : Option (List (ℚ × ℚ))

/-- The recognized options of `MOO._initialize` that the modelled paths read. -/
structure Config where
  criterion : Crit
  n_iter : ℕ
  xlimits : Option (List (ℚ × ℚ))
  n_start : ℕ
  pop_size : ℕ
  n_gen : ℕ
  q : ℚ
  xdoe : Option (List (List ℚ))
  ydoe : Option FunOut
  random_state : Option ℕ
deriving DecidableEq

/-- The external collaborators, in the roles §6 of the spec assigns them:
`lhs` the space-filling sampler, `predict` the surrogate mean
(`predict_values`), `nsga2` the genetic solve returning `(res.X, res.F)`,
`minimizer` scipy's bounded `minimize(...).x`, `nrm` numpy's Euclidean norm,
`crit*` the `Criterion(kind, ...)` closures, `ego` the single-objective EGO
delegate returning `(x_opt, y_opt)`, `mkRng` the seeded stream of
`np.random.RandomState(random_state)`. -/
structure Oracles where
  mkRng : Option ℕ → RNG
  lhs : List (ℚ × ℚ) → Option ℕ → ℕ → List (List ℚ)
  predict : KRGModel → List ℚ → ℚ
  nsga2 : Prob → ℕ → ℕ → Option ℕ → List (List ℚ) × List (List ℚ)
  minimizer : (List ℚ → ℚ) → List ℚ → List (ℚ × ℚ) → List ℚ
  nrm : List ℚ → ℚ
  critPI : List KRGModel → List ℚ → ℚ
  critPIMC : List KRGModel → ℕ → Option ℕ → List ℚ → ℚ
  critEHVI : List KRGModel → List ℚ → List ℚ → ℚ
  critEHVIMC : List KRGModel → List ℚ → ℕ → Option ℕ → List ℚ → ℚ
  critWB2S : List KRGModel → List ℚ → ℚ → List ℚ → ℚ
  ego : List (List ℚ) → List ℚ → ℕ → ℕ → List (ℚ × ℚ) → Fun → List ℚ × ℚ

/-- The per-run attributes `self.xlimits` (resolved), `self.ndim`, `self.ny`. -/
structure RunCtx where
  xlimits : List (ℚ × ℚ)
  ndim : ℕ
  ny : ℕ

/-- The loop-carried state of `MOO.optimize`: the accumulated sample set
`x_data`/`y_data` (one column per objective), the current `self.modeles` and
the `self.probleme` built once by `def_prob`. -/
structure MOOState where
  x_data : List (List ℚ)
  y_data : List (List ℚ)
  modeles : List KRGModel
  probleme : Prob
deriving DecidableEq

/-- The ways the embedded `optimize` can end: the caught-`AttributeError`
path (prints `Error : No bounds given`, returns `None`), the EGO delegation,
or the multi-objective run with its final state. -/
inductive OptOutcome where
  | printedErrorNone
  | egoDone (X F : List (List ℚ))
  | mooDone (X F : List (List ℚ)) (final : MOOState)
deriving DecidableEq

/-- Python exceptions a caller could observe; none of the embedded paths
raises one, all normal returns are `Except.ok`. -/
inductive PyExc where
  | configurationError
  | attributeError
deriving DecidableEq

/-- `np.mean` of a 1-d list (division by zero yields `0` in `ℚ`, numpy never
receives an empty list on the modelled paths). -/
def npMean (l : List ℚ) : ℚ := l.sum / (l.length : ℚ)

/-- `np.var` of a 1-d list: the population variance, the mean of squared
deviations from the mean. -/
def npVar (l : List ℚ) : ℚ := ((l.map (fun x => (x - npMean l) ^ 2)).sum) / (l.length : ℚ)

/-- `max()` of a nonempty list (`0` on the empty list, which numpy would
reject). -/
def listMax : List ℚ → ℚ
  | [] => 0
  | x :: xs => xs.foldl max x

/-- `list.index(max(list))`: the first position of the maximum. -/
def idxOfMax (l : List ℚ) : ℕ := l.indexOf (listMax l)

/-- Column `i` of a row-major matrix (`m[:, i]`). -/
def colGet (m : List (List ℚ)) (i : ℕ) : List ℚ := m.map (fun r => r.getD i 0)

/-- `np.transpose(np.asarray([mod.training_points[None][0][1] for mod in
self.modeles]))[0]`: the `(n_points, ny)` matrix of observed outputs, row
`j` holding point `j`'s value under every objective. -/
def ydataOf (modeles : List KRGModel) : List (List ℚ) :=
  (modeles.map (fun m => m.yt)).transpose

/-- Componentwise difference of two design (or objective) vectors, the
argument of `np.linalg.norm(xj - xi)`. -/
def vsub (a b : List ℚ) : List ℚ := List.zipWith (fun x y => x - y) a b

/-- `[sum([np.linalg.norm(cj - ci) for cj in data]) / n for ci in C]`: the
dispersion of every candidate in `C` relative to the training rows `data`
(the GA branch builds it once for design space and once for objective
space). -/
def d_l (nrm : List ℚ → ℚ) (data : List (List ℚ)) (C : List (List ℚ)) (n : ℚ) : List ℚ :=
  C.map (fun ci => ((data.map (fun cj => nrm (vsub cj ci))).sum) / n)

/-- `dispersion = [q*(d_l_x[j]-µ_x)/var_x + (1-q)*(d_l_f[j]-µ_f)/var_f for j
in range(X.shape[0])]`. -/
def dispersionList (q : ℚ) (dlx dlf : List ℚ) (len : ℕ) : List ℚ :=
  (List.range len).map (fun j =>
    q * (dlx.getD j 0 - npMean dlx) / npVar dlx
      + (1 - q) * (dlf.getD j 0 - npMean dlf) / npVar dlf)

/-- `n = ydata.shape[1]`: the divisor of both dispersion lists.  `ydata` has
one row per sampled point and one column per objective, so this is the
number of objectives. -/
def gaN (ydata : List (List ℚ)) : ℚ := (((ydata.headD []).length : ℕ) : ℚ)

/-- `d_l_x`, the design-space dispersion of the genetic candidates `X`
relative to the training inputs `xdata`. -/
def gaDlx (nrm : List ℚ → ℚ) (xdata X ydata : List (List ℚ)) : List ℚ :=
  d_l nrm xdata X (gaN ydata)

/-- `d_l_f`, the objective-space dispersion of the candidate values `Y`
relative to the training outputs `ydata`. -/
def gaDlf (nrm : List ℚ → ℚ) (Y ydata : List (List ℚ)) : List ℚ :=
  d_l nrm ydata Y (gaN ydata)

/-- The weighted `dispersion` list of the GA branch. -/
def gaDisp (nrm : List ℚ → ℚ) (q : ℚ) (X Y xdata ydata : List (List ℚ)) : List ℚ :=
  dispersionList q (gaDlx nrm xdata X ydata) (gaDlf nrm Y ydata) X.length

/-- Lines 249–268 of `smoot.py` (the MOBOpt criterion of the GA branch):
dispersion lists over the genetic candidates, the zero-variance fallback to
`X[0, :]` (`if var_x == 0 or var_f == 0: return X[0, :]`), otherwise
`X[dispersion.index(max(dispersion)), :]`. -/
def gaSelect (nrm : List ℚ → ℚ) (q : ℚ) (X Y xdata ydata : List (List ℚ)) : List ℚ :=
  if npVar (gaDlx nrm xdata X ydata) = 0 ∨ npVar (gaDlf nrm Y ydata) = 0 then X.headD []
  else X.getD (idxOfMax (gaDisp nrm q X Y xdata ydata)) []

/-- `ref = [ydata[:, i].max() + 1 for i in range(self.ny)]`, computed in the
EHVI branch before the 2-objective / Monte-Carlo split, so the same
reference point serves both. -/
def ehviRef (ydata : List (List ℚ)) (ny : ℕ) : List ℚ :=
  (List.range ny).map (fun i => listMax (colGet ydata i) + 1)

/-- `ref = [ydata[:, 0].max() + 1, ydata[:, 1].max() + 1]` of the WB2S
branch: built from the first two objective columns only, whatever `ny` is. -/
def wb2sRef (ydata : List (List ℚ)) : List ℚ :=
  [listMax (colGet ydata 0) + 1, listMax (colGet ydata 1) + 1]

/-- The WB2S scaling factor: `s = 1` when `EHVImax == 0`, otherwise
`beta * sum(|predict_values(xmax)|) / EHVImax` with `beta = 100`. -/
def wb2s_s (predict : KRGModel → List ℚ → ℚ) (modeles : List KRGModel)
    (xmax : List ℚ) (EHVImax : ℚ) : ℚ :=
  if EHVImax = 0 then 1
  else 100 * ((modeles.map (fun m => |predict m xmax|)).sum) / EHVImax

/-- `for i in range(self.ndim): xstart[i] = self.seed.uniform(*bounds[i])`:
one stream draw per dimension, mapped into the dimension's interval. -/
def drawStart (bounds : List (ℚ × ℚ)) (rng : RNG) : List ℚ × RNG :=
  match bounds with
  | [] => ([], rng)
  | (lo, hi) :: bs =>
      let v := lo + (hi - lo) * rng.headD 0
      let rest := drawStart bs rng.tail
      (v :: rest.1, rest.2)

/-- The shared tail of the PI/EHVI/WB2S branches: draw `xstart` uniformly
inside `xlimits` from the seeded stream, then one bounded local
minimization of the negated criterion (`minimize1D(self.obj_k, xstart,
bounds=bounds).x`). -/
def fbpTail (O : Oracles) (ctx : RunCtx) (obj : List ℚ → ℚ) (rng : RNG) : List ℚ × RNG :=
  let s := drawStart ctx.xlimits rng
  (O.minimizer obj s.1 ctx.xlimits, s.2)

/-- `MOO._find_best_point`: dispatch on the criterion option.  GA solves
`self.probleme` genetically and applies `gaSelect`; PI/EHVI build the
analytic criterion for 2 objectives and the `100 * n_obj`-point Monte-Carlo
one otherwise; WB2S locates the EHVI maximizer from its own random start,
derives the scaling factor, and maximizes the scaled criterion. -/
def find_best_point (O : Oracles) (cfg : Config) (ctx : RunCtx) (st : MOOState)
    (rng : RNG) : List ℚ × RNG :=
  match cfg.criterion with
  | .GA =>
      let res := O.nsga2 st.probleme cfg.pop_size cfg.n_gen cfg.random_state
      let ydata := ydataOf st.modeles
      let xdata := (st.modeles.headD ⟨[], []⟩).xt
      (gaSelect O.nrm cfg.q res.1 res.2 xdata ydata, rng)
  | .PI =>
      let crit := if ctx.ny = 2 then O.critPI st.modeles
                  else O.critPIMC st.modeles (100 * ctx.ny) cfg.random_state
      fbpTail O ctx (fun x => -(crit x)) rng
  | .EHVI =>
      let ydata := ydataOf st.modeles
      let ref := ehviRef ydata ctx.ny
      let crit := if ctx.ny = 2 then O.critEHVI st.modeles ref
                  else O.critEHVIMC st.modeles ref (100 * ctx.ny) cfg.random_state
      fbpTail O ctx (fun x => -(crit x)) rng
  | .WB2S =>
      let ydata := ydataOf st.modeles
      let ref := wb2sRef ydata
      let ehvi := O.critEHVI st.modeles ref
      let s0 := drawStart ctx.xlimits rng
      let xmax := O.minimizer (fun x => -(ehvi x)) s0.1 ctx.xlimits
      let s := wb2s_s O.predict st.modeles xmax (ehvi xmax)
      fbpTail O ctx (fun x => -(O.critWB2S st.modeles ref s x)) s0.2

/-- `MOO.modelize`: one fresh KRG per objective, trained on the full
accumulated sample set (`for iny in range(self.ny)`); `self.modeles` is
rebound to the new list. -/
def modelize (ny : ℕ) (xt : List (List ℚ)) (yt : List (List ℚ)) : List KRGModel :=
  (List.range ny).map (fun iny => ⟨xt, yt.getD iny []⟩)

/-- `MOO.def_prob`: the pymoo problem over `xlimits` whose evaluation closure
captures the list `self.modeles` held at construction time. -/
def def_prob (ny ndim : ℕ) (xlimits : List (ℚ × ℚ)) (modeles : List KRGModel) : Prob :=
  { n_var := ndim
    n_obj := ny
    xl := xlimits.map (fun i => i.1)
    xu := xlimits.map (fun i => i.2)
    models := modeles }

/-- `MOO._setup_optimizer`: the pre-supplied doe verbatim when both `xdoe`
and `ydoe` are arrays, otherwise an LHS sample of `n_start` points
evaluated once through `fun`. -/
def setup_optimizer (O : Oracles) (cfg : Config) (f : Fun) (xl : List (ℚ × ℚ)) :
    List (List ℚ) × FunOut :=
  match cfg.xdoe, cfg.ydoe with
  | some xd, some yd => (xd, yd)
  | _, _ =>
      let xt := O.lhs xl cfg.random_state cfg.n_start
      (xt, f.eval xt)

/-- The `xlimits` resolution at the top of `MOO.optimize`: the configured
array, else `fun.xlimits`, else nothing (the `AttributeError` is caught). -/
def resolveXlimits (cfg : Config) (f : Fun) : Option (List (ℚ × ℚ)) :=
  match cfg.xlimits with
  | some xl => some xl
  | none => f.xlimits

/-- The new-point columns appended each iteration: `fun(np.array([new_x]))`
read back column by column. -/
def asCols : FunOut → List (List ℚ)
  | .single ys => [ys]
  | .multi cols => cols

/-- One pass of the refinement loop body (lines 129–140): select a point,
evaluate `fun` on it, append the pair to the sample set, retrain the
surrogates.  `self.probleme` is not touched by the body. -/
def optStep (O : Oracles) (cfg : Config) (f : Fun) (ctx : RunCtx)
    (s : MOOState × RNG) : MOOState × RNG :=
  let nb := find_best_point O cfg ctx s.1 s.2
  let new_y := asCols (f.eval [nb.1])
  let y2 := (List.range s.1.y_data.length).map
    (fun i => (s.1.y_data.getD i []) ++ (new_y.getD i []))
  let x2 := s.1.x_data ++ [nb.1]
  (⟨x2, y2, modelize ctx.ny x2 y2, s.1.probleme⟩, nb.2)

/-- `for k in range(self.options["n_iter"])`: the loop body iterated. -/
def optLoop (O : Oracles) (cfg : Config) (f : Fun) (ctx : RunCtx) :
    ℕ → MOOState × RNG → MOOState × RNG
  | 0, s => s
  | Nat.succ k, s => optLoop O cfg f ctx k (optStep O cfg f ctx s)

/-- `MOO.optimize`: resolve bounds (printing and returning when they are
absent), sample, route single-objective output to EGO, otherwise train the
initial surrogates, build `self.probleme` once, run the refinement loop,
and hand `self.probleme` to the final NSGA2 solve. -/
def optimize (O : Oracles) (cfg : Config) (f : Fun) : Except PyExc OptOutcome :=
  match resolveXlimits cfg f with
  | none => .ok .printedErrorNone
  | some xl =>
      let p := setup_optimizer O cfg f xl
      let ndim := xl.length
      match p.2 with
      | .single ys =>
          let e := O.ego p.1 ys cfg.n_iter cfg.n_start xl f
          .ok (.egoDone [e.1] [[e.2]])
      | .multi cols =>
          let ny := cols.length
          let modeles0 := modelize ny p.1 cols
          let prob := def_prob ny ndim xl modeles0
          let ctx : RunCtx := ⟨xl, ndim, ny⟩
          let st0 : MOOState := ⟨p.1, cols, modeles0, prob⟩
          let sF := optLoop O cfg f ctx cfg.n_iter (st0, O.mkRng cfg.random_state)
          let res := O.nsga2 sF.1.probleme cfg.pop_size cfg.n_gen cfg.random_state
          .ok (.mooDone res.1 res.2 sF.1)

/-- The final `MOOState` of a completed multi-objective run (`default`-like
junk elsewhere, used only to state closed facts about concrete runs). -/
def mooStateOf : Except PyExc OptOutcome → MOOState
  | .ok (.mooDone _ _ s) => s
  | _ => ⟨[], [], [], ⟨0, 0, [], [], []⟩⟩

/-- The design point lies componentwise inside the box `bounds` and has one
coordinate per dimension. -/
def inBounds (bounds : List (ℚ × ℚ)) (x : List ℚ) : Prop :=
  x.length = bounds.length ∧
    ∀ i < bounds.length, (bounds.getD i (0, 0)).1 ≤ x.getD i 0 ∧
      x.getD i 0 ≤ (bounds.getD i (0, 0)).2

instance (bounds : List (ℚ × ℚ)) (x : List ℚ) : Decidable (inBounds bounds x) := by
  unfold inBounds
  infer_instance

/-! Concrete instances used to evaluate the embedded program on closed
inputs: a one-dimensional box, a two-objective function, a single-objective
function and computable stand-ins for every external collaborator. -/

/-- The box `[[0, 1]]`. -/
def testBounds : List (ℚ × ℚ) := [(0, 1)]

/-- Computable stand-ins for the external collaborators: the sampler returns
`n` evenly spaced points, the bounded minimizer returns the lower corner,
the genetic solve returns one interior candidate, prediction reports the
size of the model's training set (so that retraining is observable). -/
def testO : Oracles where
  mkRng := fun _ => [1/2, 1/3, 1/4, 1/5, 1/6, 1/7]
  lhs := fun _ _ n => (List.range n).map (fun i => [(i : ℚ) / (n : ℚ)])
  predict := fun m _ => (m.xt.length : ℚ)
  nsga2 := fun _ _ _ _ => ([[1/2]], [[1/3, 1/4]])
  minimizer := fun _ _ b => b.map (fun p => p.1)
  nrm := fun v => (v.map (fun t => |t|)).sum
  critPI := fun _ _ => 0
  critPIMC := fun _ _ _ _ => 0
  critEHVI := fun _ _ _ => 0
  critEHVIMC := fun _ _ _ _ _ => 0
  critWB2S := fun _ _ _ _ => 0
  ego := fun _ _ _ _ _ _ => ([0], 0)

/-- A deterministic two-objective function over the unit interval. -/
def testF : Fun where
  eval := fun X => .multi [X.map (fun x => x.headD 0), X.map (fun x => 1 - x.headD 0)]
  xlimits := none

/-- A deterministic single-objective function (returns one scalar column). -/
def testFS : Fun where
  eval := fun X => .single (X.map (fun x => x.headD 0))
  xlimits := none

/-- A small configuration: PI criterion, one refinement iteration, two
initial samples. -/
def testCfg : Config where
  criterion := .PI
  n_iter := 1
  xlimits := some testBounds
  n_start := 2
  pop_size := 100
  n_gen := 100
  q := 1/2
  xdoe := none
  ydoe := none
  random_state := some 0

/-- `testCfg` with no bounds configured. -/
def cfgNoBounds : Config := { testCfg with xlimits := none }

/-- An objective function exposing no `xlimits` attribute. -/
def funNoBounds : Fun := ⟨fun _ => .multi [], none⟩

/-- A concrete run context over `testBounds` with two objectives. -/
def testCtx : RunCtx := ⟨testBounds, 1, 2⟩

/-- A concrete loop state for exercising `find_best_point` directly. -/
def testSt : MOOState :=
  { x_data := [[0], [1/2]]
    y_data := [[0, 1/2], [1, 1/2]]
    modeles := modelize 2 [[0], [1/2]] [[0, 1/2], [1, 1/2]]
    probleme := def_prob 2 1 testBounds (modelize 2 [[0], [1/2]] [[0, 1/2], [1, 1/2]]) }

/-! Helper lemmas about `listMax`, `idxOfMax` and the loop.  The rational
arithmetic primitives are restored to semireducible locally so that closed
runs of the embedded program evaluate by `decide`. -/

set_option allowUnsafeReducibility true

attribute [local semireducible] Rat.mul Rat.inv Rat.add Rat.sub

theorem le_foldl_max_init (xs : List ℚ) : ∀ a : ℚ, a ≤ xs.foldl max a := by
  induction xs with
  | nil => intro a; exact le_rfl
  | cons x xs ih =>
      intro a
      show a ≤ xs.foldl max (max a x)
      exact le_trans (le_max_left a x) (ih (max a x))

theorem le_foldl_max_of_mem (xs : List ℚ) : ∀ (a y : ℚ), y ∈ xs → y ≤ xs.foldl max a := by
  induction xs with
  | nil => intro a y h; cases h
  | cons x xs ih =>
      intro a y h
      rcases List.mem_cons.mp h with h1 | h2
      · subst h1
        show y ≤ xs.foldl max (max a y)
        exact le_trans (le_max_right a y) (le_foldl_max_init xs (max a y))
      · exact ih (max a x) y h2

theorem foldl_max_eq_or_mem (xs : List ℚ) : ∀ a : ℚ, xs.foldl max a = a ∨ xs.foldl max a ∈ xs := by
  induction xs with
  | nil => intro a; exact Or.inl rfl
  | cons x xs ih =>
      intro a
      rcases ih (max a x) with h | h
      · by_cases hax : a ≤ x
        · refine Or.inr ?_
          show xs.foldl max (max a x) ∈ x :: xs
          rw [h, max_eq_right hax]
          exact List.mem_cons_self x xs
        · refine Or.inl ?_
          show xs.foldl max (max a x) = a
          rw [h, max_eq_left (le_of_not_le hax)]
      · refine Or.inr ?_
        show xs.foldl max (max a x) ∈ x :: xs
        exact List.mem_cons_of_mem x h

theorem listMax_mem {l : List ℚ} (h : l ≠ []) : listMax l ∈ l := by
  cases l with
  | nil => exact absurd rfl h
  | cons x xs =>
      show xs.foldl max x ∈ x :: xs
      rcases foldl_max_eq_or_mem xs x with h1 | h1
      · rw [h1]; exact List.mem_cons_self x xs
      · exact List.mem_cons_of_mem x h1

theorem le_listMax {l : List ℚ} {y : ℚ} (h : y ∈ l) : y ≤ listMax l := by
  cases l with
  | nil => cases h
  | cons x xs =>
      show y ≤ xs.foldl max x
      rcases List.mem_cons.mp h with h1 | h2
      · subst h1; exact le_foldl_max_init xs y
      · exact le_foldl_max_of_mem xs x y h2

theorem idxOfMax_lt_length {l : List ℚ} (h : l ≠ []) : idxOfMax l < l.length :=
  List.indexOf_lt_length.mpr (listMax_mem h)

theorem getD_idxOfMax {l : List ℚ} (h : l ≠ []) : l.getD (idxOfMax l) 0 = listMax l := by
  rw [List.getD_eq_getElem l 0 (idxOfMax_lt_length h)]
  exact List.getElem_indexOf (idxOfMax_lt_length h)

theorem gaDisp_length (nrm : List ℚ → ℚ) (q : ℚ) (X Y xdata ydata : List (List ℚ)) :
    (gaDisp nrm q X Y xdata ydata).length = X.length := by
  simp [gaDisp, dispersionList]

theorem gaSelect_mem (nrm : List ℚ → ℚ) (q : ℚ) {X : List (List ℚ)}
    (Y xdata ydata : List (List ℚ)) (hX : X ≠ []) :
    gaSelect nrm q X Y xdata ydata ∈ X := by
  unfold gaSelect
  split
  · cases X with
    | nil => exact absurd rfl hX
    | cons x xs => exact List.mem_cons_self x xs
  · have hlen : (gaDisp nrm q X Y xdata ydata).length = X.length :=
      gaDisp_length nrm q X Y xdata ydata
    have hne : gaDisp nrm q X Y xdata ydata ≠ [] := by
      intro hnil
      apply hX
      have := hlen
      rw [hnil] at this
      exact List.length_eq_zero.mp this.symm
    have hidx : idxOfMax (gaDisp nrm q X Y xdata ydata) < X.length := by
      rw [← hlen]
      exact idxOfMax_lt_length hne
    rw [List.getD_eq_getElem X [] hidx]
    exact List.getElem_mem hidx

theorem optLoop_x_data_length (O : Oracles) (cfg : Config) (f : Fun) (ctx : RunCtx) :
    ∀ (k : ℕ) (s : MOOState × RNG),
      (optLoop O cfg f ctx k s).1.x_data.length = s.1.x_data.length + k := by
  intro k
  induction k with
  | zero => intro s; rfl
  | succ k ih =>
      intro s
      show (optLoop O cfg f ctx k (optStep O cfg f ctx s)).1.x_data.length
            = s.1.x_data.length + (k + 1)
      rw [ih (optStep O cfg f ctx s)]
      have hstep : (optStep O cfg f ctx s).1.x_data.length = s.1.x_data.length + 1 := by
        simp [optStep]
      rw [hstep]
      omega

/-! The claims. -/

/-- Claim C5: under the GA acquisition policy, `_find_best_point` returns the
first genetic candidate unmodified when either dispersion list has zero
variance (no division is attempted), and otherwise returns the candidate of
maximal weighted dispersion `q*(d_x-µ_x)/var_x + (1-q)*(d_f-µ_f)/var_f`
(the first index attaining the maximum). -/
theorem c5_ga_dispersion_fallback (nrm : List ℚ → ℚ) (q : ℚ)
    (X Y xdata ydata : List (List ℚ)) (hX : X ≠ []) :
    (npVar (gaDlx nrm xdata X ydata) = 0 ∨ npVar (gaDlf nrm Y ydata) = 0 →
        gaSelect nrm q X Y xdata ydata = X.headD [])
    ∧ (npVar (gaDlx nrm xdata X ydata) ≠ 0 → npVar (gaDlf nrm Y ydata) ≠ 0 →
        gaSelect nrm q X Y xdata ydata
            = X.getD (idxOfMax (gaDisp nrm q X Y xdata ydata)) []
          ∧ ∀ d ∈ gaDisp nrm q X Y xdata ydata,
              d ≤ (gaDisp nrm q X Y xdata ydata).getD
                    (idxOfMax (gaDisp nrm q X Y xdata ydata)) 0) := by
  constructor
  · intro h
    unfold gaSelect
    rw [if_pos h]
  · intro hx hf
    have hcond : ¬ (npVar (gaDlx nrm xdata X ydata) = 0 ∨ npVar (gaDlf nrm Y ydata) = 0) := by
      rintro (h | h)
      · exact hx h
      · exact hf h
    constructor
    · unfold gaSelect
      rw [if_neg hcond]
    · intro d hd
      have hne : gaDisp nrm q X Y xdata ydata ≠ [] := by
        intro hnil
        rw [hnil] at hd
        cases hd
      rw [getD_idxOfMax hne]
      exact le_listMax hd

/-- Witness for C5: three one-dimensional candidates at a configuration with
nonzero variances select the dispersion maximizer; the hypothesis `X ≠ []`
is discharged at the concrete input. -/
theorem c5_ga_dispersion_fallback_witness :
    (npVar (gaDlx (fun v => (v.map (fun t => |t|)).sum) [[0], [1]] [[0], [4], [10]]
          [[0, 1], [1, 0]]) = 0 ∨
        npVar (gaDlf (fun v => (v.map (fun t => |t|)).sum) [[0, 0], [2, 2], [5, 5]]
          [[0, 1], [1, 0]]) = 0 →
        gaSelect (fun v => (v.map (fun t => |t|)).sum) (1/2) [[0], [4], [10]]
            [[0, 0], [2, 2], [5, 5]] [[0], [1]] [[0, 1], [1, 0]]
          = [[0], [4], [10]].headD [])
    ∧ (npVar (gaDlx (fun v => (v.map (fun t => |t|)).sum) [[0], [1]] [[0], [4], [10]]
          [[0, 1], [1, 0]]) ≠ 0 →
        npVar (gaDlf (fun v => (v.map (fun t => |t|)).sum) [[0, 0], [2, 2], [5, 5]]
          [[0, 1], [1, 0]]) ≠ 0 →
        gaSelect (fun v => (v.map (fun t => |t|)).sum) (1/2) [[0], [4], [10]]
            [[0, 0], [2, 2], [5, 5]] [[0], [1]] [[0, 1], [1, 0]]
          = [[0], [4], [10]].getD
              (idxOfMax (gaDisp (fun v => (v.map (fun t => |t|)).sum) (1/2) [[0], [4], [10]]
                [[0, 0], [2, 2], [5, 5]] [[0], [1]] [[0, 1], [1, 0]])) []
          ∧ ∀ d ∈ gaDisp (fun v => (v.map (fun t => |t|)).sum) (1/2) [[0], [4], [10]]
              [[0, 0], [2, 2], [5, 5]] [[0], [1]] [[0, 1], [1, 0]],
              d ≤ (gaDisp (fun v => (v.map (fun t => |t|)).sum) (1/2) [[0], [4], [10]]
                    [[0, 0], [2, 2], [5, 5]] [[0], [1]] [[0, 1], [1, 0]]).getD
                  (idxOfMax (gaDisp (fun v => (v.map (fun t => |t|)).sum) (1/2) [[0], [4], [10]]
                    [[0, 0], [2, 2], [5, 5]] [[0], [1]] [[0, 1], [1, 0]])) 0) :=
  c5_ga_dispersion_fallback (fun v => (v.map (fun t => |t|)).sum) (1/2) [[0], [4], [10]]
    [[0, 0], [2, 2], [5, 5]] [[0], [1]] [[0, 1], [1, 0]] (by decide)

/-- Claim C7: the EHVI reference point, computed before the
2-objective/Monte-Carlo split and hence shared by both branches, has i-th
component `max(ydata[:, i]) + 1`, which strictly exceeds every observed
training value of objective i. -/
theorem c7_ehvi_ref_dominates (ydata : List (List ℚ)) (ny i : ℕ) (hi : i < ny) :
    (ehviRef ydata ny).getD i 0 = listMax (colGet ydata i) + 1
    ∧ ∀ y ∈ colGet ydata i, y < (ehviRef ydata ny).getD i 0 := by
  have hlen : i < (ehviRef ydata ny).length := by
    simpa [ehviRef] using hi
  have hcomp : (ehviRef ydata ny).getD i 0 = listMax (colGet ydata i) + 1 := by
    rw [List.getD_eq_getElem _ 0 hlen]
    simp [ehviRef]
  refine ⟨hcomp, ?_⟩
  intro y hy
  rw [hcomp]
  have := le_listMax hy
  linarith

/-- Witness for C7: a concrete two-objective training set; the reference
component for objective 0 is `3 + 1 = 4` and dominates the observed column
`[0, 3]`. -/
theorem c7_ehvi_ref_dominates_witness :
    (ehviRef [[0, 5], [3, 2]] 2).getD 0 0 = listMax (colGet [[0, 5], [3, 2]] 0) + 1
    ∧ ∀ y ∈ colGet [[0, 5], [3, 2]] 0, y < (ehviRef [[0, 5], [3, 2]] 2).getD 0 0 :=
  c7_ehvi_ref_dominates [[0, 5], [3, 2]] 2 0 (by decide)

/-- Claim C6: the WB2S scaling factor (the `s` that `find_best_point` hands
to the WB2S criterion) is exactly 1 when the EHVI value at the
EHVI-maximizing point is 0, and otherwise `beta` times the sum of the
absolute predicted means over all objectives at that point divided by
`EHVImax`, with `beta = 100`; in particular `s * EHVImax` recovers the
scaled mean magnitude. -/
theorem c6_wb2s_scaling (predict : KRGModel → List ℚ → ℚ) (modeles : List KRGModel)
    (xmax : List ℚ) (EHVImax : ℚ) :
    (EHVImax = 0 → wb2s_s predict modeles xmax EHVImax = 1)
    ∧ (EHVImax ≠ 0 →
        wb2s_s predict modeles xmax EHVImax
            = 100 * ((modeles.map (fun m => |predict m xmax|)).sum) / EHVImax
          ∧ wb2s_s predict modeles xmax EHVImax * EHVImax
            = 100 * ((modeles.map (fun m => |predict m xmax|)).sum)) := by
  constructor
  · intro h
    unfold wb2s_s
    rw [if_pos h]
  · intro h
    constructor
    · unfold wb2s_s
      rw [if_neg h]
    · unfold wb2s_s
      rw [if_neg h]
      field_simp

/-- Claim C10: the WB2S reference point is built from the first two
objective columns only — it always has exactly 2 components,
`[max(ydata[:, 0]) + 1, max(ydata[:, 1]) + 1]`, ignores every further
objective, and the WB2S branch of `find_best_point` never consults the
Monte-Carlo EHVI criterion, whatever the number of objectives. -/
theorem c10_wb2s_ref_first_two_objectives :
    (∀ ydata : List (List ℚ), (wb2sRef ydata).length = 2)
    ∧ (∀ ydata : List (List ℚ),
        wb2sRef ydata = [listMax (colGet ydata 0) + 1, listMax (colGet ydata 1) + 1])
    ∧ (∀ ydata ydata' : List (List ℚ), colGet ydata 0 = colGet ydata' 0 →
        colGet ydata 1 = colGet ydata' 1 → wb2sRef ydata = wb2sRef ydata')
    ∧ (∀ (O : Oracles) (g : List KRGModel → List ℚ → ℕ → Option ℕ → List ℚ → ℚ)
        (cfg : Config) (ctx : RunCtx) (st : MOOState) (rng : RNG),
        cfg.criterion = Crit.WB2S →
        find_best_point { O with critEHVIMC := g } cfg ctx st rng
          = find_best_point O cfg ctx st rng) := by
  refine ⟨fun ydata => rfl, fun ydata => rfl, ?_, ?_⟩
  · intro ydata ydata' h0 h1
    unfold wb2sRef
    rw [h0, h1]
  · intro O g cfg ctx st rng hc
    obtain ⟨cr, ni, xls, ns, ps, ng, q, xd, yd, rs⟩ := cfg
    simp only at hc
    subst hc
    rfl

/-- Claim C2 counterexample: with no `xlimits` configured and an objective
function exposing none, `optimize` returns normally (it prints
`Error : No bounds given` and returns `None`); no `ConfigurationError` —
no exception at all — is raised. -/
theorem c2_counterexample :
    optimize testO cfgNoBounds funNoBounds = Except.ok OptOutcome.printedErrorNone
    ∧ optimize testO cfgNoBounds funNoBounds ≠ Except.error PyExc.configurationError := by
  refine ⟨rfl, ?_⟩
  intro h
  exact Except.noConfusion h

/-- Claim C2 as amended: when `xlimits` is absent from both the
configuration and the objective function, `optimize` prints an error and
returns immediately with `None`; the outcome is the same constant for every
choice of external oracles and objective evaluation map, so the refinement
loop never starts — no sampling, no training, no evaluation of `fun`. -/
theorem c2_no_bounds_prints_and_returns (O : Oracles) (cfg : Config) (f : Fun)
    (h1 : cfg.xlimits = none) (h2 : f.xlimits = none) :
    optimize O cfg f = Except.ok OptOutcome.printedErrorNone := by
  have hres : resolveXlimits cfg f = none := by
    unfold resolveXlimits
    rw [h1, h2]
  unfold optimize
  rw [hres]

/-- Witness for C2's amended statement at the concrete no-bounds run. -/
theorem c2_no_bounds_witness :
    optimize testO cfgNoBounds funNoBounds = Except.ok OptOutcome.printedErrorNone :=
  c2_no_bounds_prints_and_returns testO cfgNoBounds funNoBounds rfl rfl

/-- Claim C9: the embedded `optimize` is a pure function of the
configuration (including `random_state`, from which the seeded stream and
every seeded external draw derive), the objective function and the external
oracles — two runs with identical configuration and the same deterministic
objective produce identical results, Pareto set and front included. -/
theorem c9_fixed_seed_determinism (O : Oracles) (f : Fun) (cfg1 cfg2 : Config)
    (h : cfg1 = cfg2) :
    optimize O cfg1 f = optimize O cfg2 f := by
  rw [h]

/-- Witness for C9: two syntactically distinct but equal configurations give
equal outcomes on a concrete two-objective run. -/
theorem c9_fixed_seed_determinism_witness :
    optimize testO { testCfg with n_iter := 2 } testF
      = optimize testO { testCfg with n_iter := 1 + 1 } testF :=
  c9_fixed_seed_determinism testO testF { testCfg with n_iter := 2 }
    { testCfg with n_iter := 1 + 1 } (by decide)

/-- Helper: a run whose sampled output is a single scalar column returns the
EGO delegation outcome. -/
theorem optimize_single_eq (O : Oracles) (cfg : Config) (f : Fun) (xl : List (ℚ × ℚ))
    (xd : List (List ℚ)) (ys : List ℚ)
    (hxl : resolveXlimits cfg f = some xl)
    (hsetup : setup_optimizer O cfg f xl = (xd, FunOut.single ys)) :
    optimize O cfg f
      = Except.ok (OptOutcome.egoDone [(O.ego xd ys cfg.n_iter cfg.n_start xl f).1]
          [[(O.ego xd ys cfg.n_iter cfg.n_start xl f).2]]) := by
  unfold optimize
  rw [hxl]
  simp only [hsetup]

/-- Claim C4: when the sampled output has one scalar per point, `optimize`
delegates to the external EGO strategy and returns its wrapped result; the
outcome is unchanged under replacing every oracle of the multi-objective
machinery (surrogate prediction, genetic solver, bounded minimizer, norm,
all criteria, seeded stream), so that machinery is never entered. -/
theorem c4_single_objective_routes_to_ego (O : Oracles) (cfg : Config) (f : Fun)
    (xl : List (ℚ × ℚ)) (xd : List (List ℚ)) (ys : List ℚ)
    (mk' : Option ℕ → RNG)
    (pr' : KRGModel → List ℚ → ℚ)
    (ns' : Prob → ℕ → ℕ → Option ℕ → List (List ℚ) × List (List ℚ))
    (mi' : (List ℚ → ℚ) → List ℚ → List (ℚ × ℚ) → List ℚ)
    (nr' : List ℚ → ℚ)
    (p1' : List KRGModel → List ℚ → ℚ)
    (p2' : List KRGModel → ℕ → Option ℕ → List ℚ → ℚ)
    (e1' : List KRGModel → List ℚ → List ℚ → ℚ)
    (e2' : List KRGModel → List ℚ → ℕ → Option ℕ → List ℚ → ℚ)
    (w' : List KRGModel → List ℚ → ℚ → List ℚ → ℚ)
    (hxl : resolveXlimits cfg f = some xl)
    (hsetup : setup_optimizer O cfg f xl = (xd, FunOut.single ys)) :
    optimize O cfg f
        = Except.ok (OptOutcome.egoDone [(O.ego xd ys cfg.n_iter cfg.n_start xl f).1]
            [[(O.ego xd ys cfg.n_iter cfg.n_start xl f).2]])
    ∧ optimize { O with
          mkRng := mk'
          predict := pr'
          nsga2 := ns'
          minimizer := mi'
          nrm := nr'
          critPI := p1'
          critPIMC := p2'
          critEHVI := e1'
          critEHVIMC := e2'
          critWB2S := w' } cfg f
        = optimize O cfg f := by
  have h1 := optimize_single_eq O cfg f xl xd ys hxl hsetup
  have hsetup' : setup_optimizer
      { O with
        mkRng := mk'
        predict := pr'
        nsga2 := ns'
        minimizer := mi'
        nrm := nr'
        critPI := p1'
        critPIMC := p2'
        critEHVI := e1'
        critEHVIMC := e2'
        critWB2S := w' } cfg f xl = (xd, FunOut.single ys) := hsetup
  have h2 := optimize_single_eq
    { O with
      mkRng := mk'
      predict := pr'
      nsga2 := ns'
      minimizer := mi'
      nrm := nr'
      critPI := p1'
      critPIMC := p2'
      critEHVI := e1'
      critEHVIMC := e2'
      critWB2S := w' } cfg f xl xd ys hxl hsetup'
  exact ⟨h1, by rw [h1, h2]⟩

/-- Witness for C4: the concrete single-objective function routes to EGO and
the outcome ignores every multi-objective oracle. -/
theorem c4_single_objective_routes_to_ego_witness :
    optimize testO testCfg testFS
        = Except.ok (OptOutcome.egoDone
            [(testO.ego [[0], [1/2]] [0, 1/2] testCfg.n_iter testCfg.n_start testBounds testFS).1]
            [[(testO.ego [[0], [1/2]] [0, 1/2] testCfg.n_iter testCfg.n_start testBounds testFS).2]])
    ∧ optimize { testO with
          mkRng := fun _ => []
          predict := fun _ _ => 0
          nsga2 := fun _ _ _ _ => ([], [])
          minimizer := fun _ _ _ => []
          nrm := fun _ => 0
          critPI := fun _ _ => 0
          critPIMC := fun _ _ _ _ => 0
          critEHVI := fun _ _ _ => 0
          critEHVIMC := fun _ _ _ _ _ => 0
          critWB2S := fun _ _ _ _ => 0 } testCfg testFS
        = optimize testO testCfg testFS :=
  c4_single_objective_routes_to_ego testO testCfg testFS testBounds [[0], [1/2]] [0, 1/2]
    (fun _ => []) (fun _ _ => 0) (fun _ _ _ _ => ([], [])) (fun _ _ _ => []) (fun _ => 0)
    (fun _ _ => 0) (fun _ _ _ _ => 0) (fun _ _ _ => 0) (fun _ _ _ _ _ => 0)
    (fun _ _ _ _ => 0) rfl (by decide)

/-- Claim C3: each iteration of the refinement loop appends exactly one new
point to the sample set and removes none, so after `k` iterations the set
holds exactly `k` more points than it started with; for a completed
multi-objective run the final size is `n_start + n_iter` (or
`len(xdoe) + n_iter` when both `xdoe` and `ydoe` are pre-supplied),
strictly increasing across iterations. -/
theorem c3_sample_set_growth (O : Oracles) (cfg : Config) (f : Fun) (ctx : RunCtx) :
    (∀ s : MOOState × RNG,
        (optStep O cfg f ctx s).1.x_data
          = s.1.x_data ++ [(find_best_point O cfg ctx s.1 s.2).1])
    ∧ (∀ (k : ℕ) (s : MOOState × RNG),
        (optLoop O cfg f ctx k s).1.x_data.length = s.1.x_data.length + k)
    ∧ (∀ (X F : List (List ℚ)) (stF : MOOState),
        optimize O cfg f = Except.ok (OptOutcome.mooDone X F stF) →
        (∀ (b : List (ℚ × ℚ)) (rs : Option ℕ) (n : ℕ), (O.lhs b rs n).length = n) →
        stF.x_data.length
          = (match cfg.xdoe, cfg.ydoe with
             | some xd, some _ => xd.length
             | _, _ => cfg.n_start) + cfg.n_iter) := by
  refine ⟨fun s => rfl, optLoop_x_data_length O cfg f ctx, ?_⟩
  intro X F stF h hlhs
  unfold optimize at h
  split at h
  · simp at h
  next xl hxl =>
    simp only at h
    split at h
    · simp at h
    next cols hcols =>
      simp only [Except.ok.injEq, OptOutcome.mooDone.injEq] at h
      obtain ⟨-, -, hst⟩ := h
      subst hst
      rw [optLoop_x_data_length]
      have hlen : (setup_optimizer O cfg f xl).1.length
          = (match cfg.xdoe, cfg.ydoe with
             | some xd, some _ => xd.length
             | _, _ => cfg.n_start) := by
        rcases hx : cfg.xdoe with _ | xd <;> rcases hy : cfg.ydoe with _ | yd <;>
          simp [setup_optimizer, hx, hy, hlhs]
      simpa using congrArg (· + cfg.n_iter) hlen

/-- Witness for C3's loop-size property: a concrete two-iteration run ends
with `2 + 2` accumulated sample points. -/
theorem c3_sample_set_growth_witness :
    (mooStateOf (optimize testO { testCfg with n_iter := 2 } testF)).x_data.length = 2 + 2 := by
  decide

/-- Claim C8: under every acquisition policy, the point `_find_best_point`
returns lies componentwise within `xlimits`, provided the external bounded
minimizer honours its bounds and the genetic candidates do (their
contracts); the GA branch's selection is always one of the genetic
candidates. -/
theorem c8_next_point_within_xlimits (O : Oracles) (cfg : Config) (ctx : RunCtx)
    (st : MOOState) (rng : RNG)
    (hmin : ∀ (g : List ℚ → ℚ) (x0 : List ℚ), inBounds ctx.xlimits (O.minimizer g x0 ctx.xlimits))
    (hga : ∀ x ∈ (O.nsga2 st.probleme cfg.pop_size cfg.n_gen cfg.random_state).1,
        inBounds ctx.xlimits x)
    (hne : (O.nsga2 st.probleme cfg.pop_size cfg.n_gen cfg.random_state).1 ≠ []) :
    inBounds ctx.xlimits (find_best_point O cfg ctx st rng).1 := by
  cases hcr : cfg.criterion with
  | GA =>
      simp only [find_best_point, hcr]
      exact hga _ (gaSelect_mem O.nrm cfg.q _ _ _ hne)
  | PI =>
      simp only [find_best_point, hcr, fbpTail]
      exact hmin _ _
  | EHVI =>
      simp only [find_best_point, hcr, fbpTail]
      exact hmin _ _
  | WB2S =>
      simp only [find_best_point, hcr, fbpTail]
      exact hmin _ _

/-- Witness for C8: a concrete state and oracle set in which the minimizer
returns the lower corner of the box and the genetic solve returns an
interior candidate. -/
theorem c8_next_point_within_xlimits_witness :
    inBounds testCtx.xlimits (find_best_point testO testCfg testCtx testSt [1/2]).1 :=
  c8_next_point_within_xlimits testO testCfg testCtx testSt [1/2]
    (fun g x0 => (by decide : inBounds testBounds [(0 : ℚ)])) (by decide) (by decide)

/-- Claim C1 (refuting theorem): on a concrete one-iteration run, the
problem handed to the final NSGA2 solve still holds the surrogates trained
on the 2 initial points, while `self.modeles` holds surrogates trained on
all 3 accumulated points; the two lists differ, and the objective the
genetic solver evaluates (`probEvaluate` over the captured snapshot)
disagrees with the predictions of the latest surrogates. -/
theorem c1_final_solve_uses_stale_surrogates :
    ((mooStateOf (optimize testO testCfg testF)).probleme.models.headD ⟨[], []⟩).xt.length = 2
    ∧ ((mooStateOf (optimize testO testCfg testF)).modeles.headD ⟨[], []⟩).xt.length = 3
    ∧ (mooStateOf (optimize testO testCfg testF)).probleme.models
        ≠ (mooStateOf (optimize testO testCfg testF)).modeles
    ∧ probEvaluate testO.predict (mooStateOf (optimize testO testCfg testF)).probleme [1/2]
        = [2, 2]
    ∧ (mooStateOf (optimize testO testCfg testF)).modeles.map (fun m => testO.predict m [1/2])
        = [3, 3] := by
  decide

end Smoot
